import Mathlib

/-!
Verification of the column-pairing and alignment logic of the two-file
overlay plotter (`src/app.py`): table loading, column matching, series
alignment and pairing building, shallowly embedded in Lean.
-/

namespace OverlayPlotter

/-- A raw table cell: an actual number, a piece of text, or an empty
(missing / NaN) cell.  Numeric values are modelled as integers. -/
inductive Cell where
  | num (v : Int)
  | text (s : String)
  | empty
deriving DecidableEq, Repr

/-- Interpret a list of characters as the digits of a natural number;
`none` when the list is empty or contains a non-digit. -/
def digitsToNat (cs : List Char) : Option Nat :=
  if cs.isEmpty then none
  else if cs.all Char.isDigit then
    some (cs.foldl (fun a c => a * 10 + (c.toNat - 48)) 0)
  else none

/-- Numeric parsing of a text cell (optional leading minus sign followed
by digits); `none` models a parse failure. -/
def parseNum (s : String) : Option Int :=
  match s.data with
  | [] => none
  | '-' :: rest => (digitsToNat rest).map (fun n => -(n : Int))
  | cs => (digitsToNat cs).map (fun n => (n : Int))

/-- Cell-level `pd.to_numeric(errors="coerce")`: numbers pass
through, text is parsed, parse failures and empty cells become missing. -/
def to_numeric : Cell → Option Int
  | .num v => some v
  | .text s => parseNum s
  | .empty => none

/-- Column coercion `to_numeric_series`: coerce a whole column to numeric, element-wise. -/
def to_numeric_series (col : List Cell) : List (Option Int) :=
  col.map to_numeric

/-- A row of the intermediate two-column frame survives `dropna` exactly
when both coerced cells are present. -/
def keepRow : Option Int × Option Int → Option (Int × Int)
  | (some a, some b) => some (a, b)
  | _ => none

/-- Series alignment `aligned_xy`: coerce the x column and the y column to numeric, pair
them row-wise, drop every row where either side is missing, and return
the two surviving sequences in original row order. -/
def aligned_xy (xCol yCol : List Cell) : List Int × List Int :=
  let x := to_numeric_series xCol
  let y := to_numeric_series yCol
  let rows := (x.zip y).filterMap keepRow
  (rows.map Prod.fst, rows.map Prod.snd)

/-- Python `str.lower()`: lowercase every character of a name. -/
def lowerName (s : String) : String :=
  String.mk (s.data.map Char.toLower)

/-- Python `str.endswith(suffix)`: does the name end with the given suffix? -/
def endsWithSuffix (s suffix : String) : Bool :=
  suffix.data.isSuffixOf s.data

/-- Time-column suggestion `suggest_time_cols`: the columns whose lowercased name ends with the
literal suffix `"_time"`. -/
def suggest_time_cols (cols : List String) : List String :=
  cols.filter (fun c => endsWithSuffix (lowerName c) "_time")

/-- Lexicographic comparison of character lists by code point, the order
Python uses to sort strings. -/
def lexLe : List Char → List Char → Bool
  | [], _ => true
  | _ :: _, [] => false
  | a :: as, b :: bs =>
    if a.toNat < b.toNat then true
    else if b.toNat < a.toNat then false
    else lexLe as bs

/-- The string order used by `sorted`. -/
def strLeP (a b : String) : Prop := lexLe a.data b.data = true

instance : DecidableRel strLeP := fun a b =>
  inferInstanceAs (Decidable (lexLe a.data b.data = true))

/-- Python `sorted(set(cols1).intersection(cols2))`: the distinct column names
present in both tables, sorted. -/
def common_columns (cols1 cols2 : List String) : List String :=
  List.insertionSort strLeP ((cols1.filter (fun c => c ∈ cols2)).dedup)

/-- The default X column: the literal name `"P_zero_pu_time"` when it is
among the time-suffix columns, else the first time-suffix column, else
the first column. -/
def default_x (cols : List String) : String :=
  let tc := suggest_time_cols cols
  if ("P_zero_pu_time") ∈ tc then ("P_zero_pu_time")
  else if tc.isEmpty then cols.headD ("") else tc.headD ("")

/-- The options offered by the X-axis selectbox:
`time_common if time_common else common`. -/
def x_options (cols : List String) : List String :=
  let tc := suggest_time_cols cols
  if tc.isEmpty then cols else tc

/-- The Y-axis candidate columns: every column except the chosen X
(`[c for c in common if c != x_col]`). -/
def y_candidates (cols : List String) (x_col : String) : List String :=
  cols.filter (fun c => c ≠ x_col)

/-- The shared-name branch: `x1 = x_col`, `x2 = x_col`, and
`pairs = [(y, y, y) for y in y_cols]` (components `(y1, y2, title)`). -/
def sharedModeResult (x_col : String) (y_cols : List String) :
    String × String × List (String × String × String) :=
  (x_col, x_col, y_cols.map (fun y => (y, y, y)))

/-- The independent-mode loop: for each slot `i < n` read the slot's two
Y selections (which a selectbox leaves at `none` only when it has no
options) and its title, and append one `(y1, y2, title)` tuple per slot,
unconditionally. -/
def independent_pairs (n : Nat) (y1 y2 : Nat → Option String) (title : Nat → String) :
    List (Option String × Option String × String) :=
  (List.range n).map (fun i => (y1 i, y2 i, title i))

/-- The error raised by `load_table` for an unrecognized extension. -/
inductive LoadError where
  | UnsupportedFileType
deriving DecidableEq, Repr

/-- The character encoding used to read a delimited-text file. -/
inductive TextEncoding where
  | utf8
  | latin1
deriving DecidableEq, Repr

/-- How the file was actually read: a delimited-text read records the
encoding used and the stream position the read started from; a
spreadsheet read records the sheet index it was given. -/
inductive ReadOutcome where
  | csvRead (enc : TextEncoding) (startPos : Nat)
  | excelRead (sheet : Nat)
deriving DecidableEq, Repr

/-- Stream repositioning `uploaded_file.seek(target)`: the stream position becomes `target`
regardless of the current position. -/
def seek (_cur : Nat) (target : Nat) : Nat := target

/-- Table loading `load_table`: dispatch on the lowercased file name.  A `.csv` file is
read as UTF-8 from position 0; when that decode fails (`utf8Ok = false`,
leaving the stream at some position `failPos`), the stream is seeked back
to 0 and re-read as latin-1.  `.xlsx`/`.xls` files are read from sheet 0.
Any other extension raises `UnsupportedFileType`. -/
def load_table (fileName : String) (utf8Ok : Bool) (failPos : Nat) :
    Except LoadError ReadOutcome :=
  let n := lowerName fileName
  if endsWithSuffix n (".csv") then
    if utf8Ok then .ok (.csvRead .utf8 0)
    else .ok (.csvRead .latin1 (seek failPos 0))
  else if endsWithSuffix n (".xlsx") || endsWithSuffix n (".xls") then
    .ok (.excelRead 0)
  else
    .error .UnsupportedFileType

/-- The halting condition reported on the shared-name path. -/
inductive RenderHalt where
  | NoCommonColumns
deriving DecidableEq, Repr

/-- The shared-name guard: compute the common columns and halt the render
pass (`st.error` + `st.stop`) when there are none. -/
def commonGate (cols1 cols2 : List String) : Except RenderHalt (List String) :=
  let common := common_columns cols1 cols2
  if common.isEmpty then .error .NoCommonColumns else .ok common

/-- A render pass in same-name mode: everything after the guard (column
selection, pairing, drawing — abstracted as a continuation `k`) runs only
when the guard passes, so an empty intersection yields the error and no
chart value is ever produced. -/
def sharedRenderPass {α : Type} (cols1 cols2 : List String)
    (k : List String → α) : Except RenderHalt α :=
  (commonGate cols1 cols2).map k

/-! ### Helper lemmas -/

theorem lexLe_total : ∀ as bs : List Char, lexLe as bs = true ∨ lexLe bs as = true
  | [], _ => Or.inl (by simp [lexLe])
  | _ :: _, [] => Or.inr (by simp [lexLe])
  | a :: as, b :: bs => by
    rcases Nat.lt_trichotomy a.toNat b.toNat with h | h | h
    · left; simp only [lexLe]; rw [if_pos h]
    · have hne : ¬a.toNat < b.toNat := by omega
      have hne' : ¬b.toNat < a.toNat := by omega
      rcases lexLe_total as bs with h2 | h2
      · left; simp only [lexLe]; rw [if_neg hne, if_neg hne']; exact h2
      · right; simp only [lexLe]; rw [if_neg hne', if_neg hne]; exact h2
    · right; simp only [lexLe]; rw [if_pos h]

theorem lexLe_trans : ∀ as bs cs : List Char,
    lexLe as bs = true → lexLe bs cs = true → lexLe as cs = true
  | [], _, cs, _, _ => by simp [lexLe]
  | _ :: _, [], _, h1, _ => by simp [lexLe] at h1
  | _ :: _, _ :: _, [], _, h2 => by simp [lexLe] at h2
  | a :: as, b :: bs, c :: cs, h1, h2 => by
    simp only [lexLe] at h1 h2 ⊢
    rcases Nat.lt_trichotomy a.toNat b.toNat with hab | hab | hab
    · rcases Nat.lt_trichotomy b.toNat c.toNat with hbc | hbc | hbc
      · rw [if_pos (by omega)]
      · rw [if_pos (by omega)]
      · rw [if_neg (by omega), if_pos (by omega)] at h2; simp at h2
    · rcases Nat.lt_trichotomy b.toNat c.toNat with hbc | hbc | hbc
      · rw [if_pos (by omega)]
      · rw [if_neg (by omega), if_neg (by omega)] at h1
        rw [if_neg (by omega), if_neg (by omega)] at h2
        rw [if_neg (by omega), if_neg (by omega)]
        exact lexLe_trans as bs cs h1 h2
      · rw [if_neg (by omega), if_pos (by omega)] at h2; simp at h2
    · rw [if_neg (by omega), if_pos (by omega)] at h1; simp at h1

instance : IsTotal String strLeP :=
  ⟨fun a b => lexLe_total a.data b.data⟩

instance : IsTrans String strLeP :=
  ⟨fun a b c => lexLe_trans a.data b.data c.data⟩

/-- The rows of the two-column frame that survive `dropna`, written as a
filter over the original row pairs: a row is kept exactly when both its
cells coerce to numeric, and the surviving rows keep their original
order. -/
def keptRows (xCol yCol : List Cell) : List (Int × Int) :=
  ((xCol.zip yCol).filter
    (fun r => (to_numeric r.1).isSome && (to_numeric r.2).isSome)).map
    (fun r => ((to_numeric r.1).getD 0, (to_numeric r.2).getD 0))

theorem rows_eq : ∀ xCol yCol : List Cell,
    ((to_numeric_series xCol).zip (to_numeric_series yCol)).filterMap keepRow =
      keptRows xCol yCol
  | [], _ => rfl
  | _ :: _, [] => rfl
  | a :: xs, b :: ys => by
    have ih := rows_eq xs ys
    cases h1 : to_numeric a <;> cases h2 : to_numeric b <;>
      simp [to_numeric_series, keptRows, keepRow, List.filter_cons, h1, h2] at ih ⊢ <;>
      simpa [to_numeric_series, keptRows] using ih

theorem aligned_xy_eq (xCol yCol : List Cell) :
    aligned_xy xCol yCol =
      ((keptRows xCol yCol).map Prod.fst, (keptRows xCol yCol).map Prod.snd) := by
  simp only [aligned_xy, rows_eq]

theorem aligned_xy_length_countP (xCol yCol : List Cell) :
    (aligned_xy xCol yCol).1.length =
      (xCol.zip yCol).countP
        (fun r => (to_numeric r.1).isSome && (to_numeric r.2).isSome) := by
  rw [aligned_xy_eq]
  simp [keptRows, List.countP_eq_length_filter]

theorem zip_length_left (xCol yCol : List Cell) (hlen : xCol.length = yCol.length) :
    (xCol.zip yCol).length = xCol.length := by
  rw [List.length_zip, hlen, Nat.min_self]

theorem mem_suggest_time_cols (cols : List String) (c : String) :
    c ∈ suggest_time_cols cols ↔
      c ∈ cols ∧ endsWithSuffix (lowerName c) "_time" = true := by
  simp [suggest_time_cols, List.mem_filter]

theorem mem_common_columns (cols1 cols2 : List String) (c : String) :
    c ∈ common_columns cols1 cols2 ↔ c ∈ cols1 ∧ c ∈ cols2 := by
  rw [common_columns, (List.perm_insertionSort strLeP _).mem_iff, List.mem_dedup,
    List.mem_filter]
  simp

/-! ### Claims -/

/-- C9: `suggest_time_cols` returns exactly the input names whose
lowercase form ends with the literal suffix `"_time"`: every returned
name comes from the input and carries the suffix after lowercasing, and
every input name with that suffix is returned. -/
theorem c9_suggest_time_cols (cols : List String) (c : String) :
    c ∈ suggest_time_cols cols ↔
      c ∈ cols ∧ endsWithSuffix (lowerName c) "_time" = true := by
  simp [suggest_time_cols, List.mem_filter]

/-- C3: `common_columns` returns the sorted, duplicate-free list of names
present in both tables under exact string equality; its content is
symmetric in the two tables, and it is empty exactly when no name appears
in both. -/
theorem c3_common_columns (cols1 cols2 : List String) :
    (∀ c, c ∈ common_columns cols1 cols2 ↔ c ∈ cols1 ∧ c ∈ cols2) ∧
    List.Sorted strLeP (common_columns cols1 cols2) ∧
    (common_columns cols1 cols2).Nodup ∧
    (∀ c, c ∈ common_columns cols1 cols2 ↔ c ∈ common_columns cols2 cols1) ∧
    (common_columns cols1 cols2 = [] ↔ ∀ c, ¬(c ∈ cols1 ∧ c ∈ cols2)) := by
  have hmem := mem_common_columns
  refine ⟨hmem cols1 cols2, List.sorted_insertionSort strLeP _,
    ((List.perm_insertionSort strLeP _).nodup_iff).mpr (List.nodup_dedup _),
    fun c => (hmem cols1 cols2 c).trans (and_comm.trans (hmem cols2 cols1 c).symm), ?_⟩
  rw [List.eq_nil_iff_forall_not_mem]
  constructor
  · intro h c hc
    exact h c ((hmem cols1 cols2 c).mpr hc)
  · intro h c hc
    exact h c ((hmem cols1 cols2 c).mp hc)

/-- C1: `aligned_xy` returns two numeric sequences of equal length;
pairing them element-wise recovers exactly the original rows, in original
row order, on which both the x cell and the y cell coerce to numeric
(so the k-th elements of the two outputs come from the same surviving
row, and a row is dropped exactly when either side fails coercion); and
when every row has a missing side the result is a pair of empty
sequences rather than an error. -/
theorem c1_aligned_xy (xCol yCol : List Cell) :
    ((aligned_xy xCol yCol).1.length = (aligned_xy xCol yCol).2.length) ∧
    ((aligned_xy xCol yCol).1.zip (aligned_xy xCol yCol).2 = keptRows xCol yCol) ∧
    ((∀ r ∈ xCol.zip yCol, to_numeric r.1 = none ∨ to_numeric r.2 = none) →
      aligned_xy xCol yCol = ([], [])) := by
  refine ⟨?_, ?_, ?_⟩
  · rw [aligned_xy_eq]; simp
  · rw [aligned_xy_eq]; simp [List.zip_map']
  · intro h
    have hk : keptRows xCol yCol = [] := by
      unfold keptRows
      have hf : (xCol.zip yCol).filter
          (fun r => (to_numeric r.1).isSome && (to_numeric r.2).isSome) = [] :=
        List.filter_eq_nil_iff.mpr (by
          intro r hr
          rcases h r hr with h0 | h0 <;> simp [h0])
      rw [hf]; rfl
    rw [aligned_xy_eq, hk]; rfl

/-- Witness for C1 at concrete all-missing columns. -/
theorem c1_aligned_xy_witness :
    aligned_xy [Cell.text ("bad"), Cell.empty] [Cell.num 2, Cell.num 3] = ([], []) :=
  (c1_aligned_xy [Cell.text ("bad"), Cell.empty] [Cell.num 2, Cell.num 3]).2.2 (by decide)

/-- C2: over equal-length columns, `aligned_xy` drops no row when every
cell of both columns is already numeric; in general the output length is
the input length minus exactly the number of rows where either side
failed coercion; and as soon as one non-numeric, non-empty cell is
present the output is strictly shorter than the input. -/
theorem c2_aligned_xy_lengths (xCol yCol : List Cell)
    (hlen : xCol.length = yCol.length) :
    ((∀ c ∈ xCol, (to_numeric c).isSome = true) →
      (∀ c ∈ yCol, (to_numeric c).isSome = true) →
      (aligned_xy xCol yCol).1.length = xCol.length) ∧
    ((aligned_xy xCol yCol).1.length =
      xCol.length - (xCol.zip yCol).countP
        (fun r => (to_numeric r.1).isNone || (to_numeric r.2).isNone)) ∧
    ((∃ c, (c ∈ xCol ∨ c ∈ yCol) ∧ to_numeric c = none ∧ c ≠ Cell.empty) →
      (aligned_xy xCol yCol).1.length < xCol.length) := by
  have hz : (xCol.zip yCol).length = xCol.length := zip_length_left xCol yCol hlen
  have hcount := aligned_xy_length_countP xCol yCol
  have hsplit := List.length_eq_countP_add_countP
    (fun r : Cell × Cell => (to_numeric r.1).isSome && (to_numeric r.2).isSome)
    (xCol.zip yCol)
  have hfail : (xCol.zip yCol).countP
      (fun r => (to_numeric r.1).isNone || (to_numeric r.2).isNone) =
      (xCol.zip yCol).countP
        (fun r => decide ¬((to_numeric r.1).isSome && (to_numeric r.2).isSome) = true) := by
    apply List.countP_congr
    intro r _
    cases to_numeric r.1 <;> cases to_numeric r.2 <;> simp
  refine ⟨?_, ?_, ?_⟩
  · intro hx hy
    rw [hcount, ← hz]
    rw [List.countP_eq_length]
    rintro ⟨a, b⟩ hr
    obtain ⟨ha, hb⟩ := List.of_mem_zip hr
    simp [hx a ha, hy b hb]
  · rw [hcount, hfail]
    omega
  · rintro ⟨c, hc, hnone, _⟩
    have hpos : 0 < (xCol.zip yCol).countP
        (fun r => (to_numeric r.1).isNone || (to_numeric r.2).isNone) := by
      rw [List.countP_pos_iff]
      rcases hc with hc | hc
      · obtain ⟨i, hi, hgi⟩ := List.mem_iff_getElem.mp hc
        have hiz : i < (xCol.zip yCol).length := by omega
        refine ⟨(xCol.zip yCol)[i], List.getElem_mem hiz, ?_⟩
        rw [List.getElem_zip, hgi]
        simp [hnone]
      · obtain ⟨i, hi, hgi⟩ := List.mem_iff_getElem.mp hc
        have hiz : i < (xCol.zip yCol).length := by omega
        refine ⟨(xCol.zip yCol)[i], List.getElem_mem hiz, ?_⟩
        rw [List.getElem_zip, hgi]
        simp [hnone]
    have hn : 0 < xCol.length := by
      rcases hc with hc | hc
      · exact List.length_pos.mpr (List.ne_nil_of_mem hc)
      · rw [hlen]; exact List.length_pos.mpr (List.ne_nil_of_mem hc)
    rw [hcount, hfail] at *
    omega

/-- Witness for C2 at concrete columns: an all-numeric pair of columns
keeps every row, and a column with one bad text cell drops exactly that
row. -/
theorem c2_aligned_xy_lengths_witness :
    ((aligned_xy [Cell.num 1, Cell.num 2] [Cell.num 5, Cell.num 6]).1.length = 2) ∧
    ((aligned_xy [Cell.num 1, Cell.text ("z")] [Cell.num 5, Cell.num 6]).1.length =
      2 - ([Cell.num 1, Cell.text ("z")].zip [Cell.num 5, Cell.num 6]).countP
        (fun r => (to_numeric r.1).isNone || (to_numeric r.2).isNone)) ∧
    ((aligned_xy [Cell.num 1, Cell.text ("z")] [Cell.num 5, Cell.num 6]).1.length < 2) :=
  ⟨(c2_aligned_xy_lengths [Cell.num 1, Cell.num 2] [Cell.num 5, Cell.num 6]
      (by decide)).1 (by decide) (by decide),
   (c2_aligned_xy_lengths [Cell.num 1, Cell.text ("z")] [Cell.num 5, Cell.num 6]
      (by decide)).2.1,
   (c2_aligned_xy_lengths [Cell.num 1, Cell.text ("z")] [Cell.num 5, Cell.num 6]
      (by decide)).2.2 ⟨Cell.text ("z"), by decide⟩⟩

/-- C4: in shared-name mode the Pairing Builder emits exactly one pairing
per selected Y column, in the order the Y columns were selected (the k-th
pairing is built from the k-th selected Y), with the same X column used
for both tables and the pairing title equal to the Y column name. -/
theorem c4_shared_pairs (x_col : String) (y_cols : List String) :
    (sharedModeResult x_col y_cols).1 = x_col ∧
    (sharedModeResult x_col y_cols).2.1 = x_col ∧
    (sharedModeResult x_col y_cols).2.2.length = y_cols.length ∧
    (∀ k : Nat, (sharedModeResult x_col y_cols).2.2[k]? =
      y_cols[k]?.map (fun y => (y, y, y))) := by
  refine ⟨rfl, rfl, by simp [sharedModeResult], ?_⟩
  intro k
  simp [sharedModeResult, List.getElem?_map]

/-- C5 counterexample: with common columns `["a_time", "b"]` (both tables
having exactly these columns), the column `"b"` is common but is not
among the options offered for the X axis — the time-suffix convention
filters availability, contradicting the claim. -/
theorem c5_counterexample :
    "b" ∈ common_columns ["a_time", "b"] ["a_time", "b"] ∧
    "b" ∉ x_options (common_columns ["a_time", "b"] ["a_time", "b"]) := by
  decide

/-- C5 amended: the time-suffix suggestion pre-populates the default and
also filters availability: a column is offered as an X option iff it is
one of the columns and either no column carries the time suffix or the
column itself does.  Hence every common column is selectable only when no
common column (or every common column) carries the suffix. -/
theorem c5_x_options (cols : List String) (c : String) :
    c ∈ x_options cols ↔
      c ∈ cols ∧ (suggest_time_cols cols = [] ∨
        endsWithSuffix (lowerName c) "_time" = true) := by
  unfold x_options
  by_cases h : suggest_time_cols cols = []
  · rw [if_pos (by simp [h])]
    simp [h]
  · rw [if_neg (by simpa using h)]
    rw [mem_suggest_time_cols]
    exact and_congr_right (fun _ => (or_iff_right h).symm)

/-- C6 counterexample: with a requested count of 3 and Y selections
supplied for only the first two slots, the independent-mode loop still
emits 3 pairings — including one whose Y components are unset — rather
than deferring the incomplete slot and emitting 2. -/
theorem c6_counterexample :
    (independent_pairs 3
      (fun i => if i < 2 then some ("a") else none)
      (fun i => if i < 2 then some ("b") else none)
      (fun _ => "t")).length = 3 ∧
    (independent_pairs 3
      (fun i => if i < 2 then some ("a") else none)
      (fun i => if i < 2 then some ("b") else none)
      (fun _ => "t")).length ≠ 2 ∧
    (none, none, "t") ∈ independent_pairs 3
      (fun i => if i < 2 then some ("a") else none)
      (fun i => if i < 2 then some ("b") else none)
      (fun _ => "t") := by
  decide

/-- C6 amended: in independent mode with requested count n the loop emits
exactly one pairing per slot, unconditionally: the output length is n and
the k-th pairing carries exactly the k-th slot's selections, whether or
not those selections are set. -/
theorem c6_independent_pairs (n : Nat) (y1 y2 : Nat → Option String)
    (title : Nat → String) :
    (independent_pairs n y1 y2 title).length = n ∧
    (∀ k, k < n →
      (independent_pairs n y1 y2 title)[k]? = some (y1 k, y2 k, title k)) := by
  constructor
  · simp [independent_pairs]
  · intro k hk
    simp [independent_pairs, List.getElem?_map, List.getElem?_range hk]

/-- Witness for C6 (amended) at a concrete slot list. -/
theorem c6_independent_pairs_witness :
    (independent_pairs 2 (fun _ => some ("a")) (fun _ => some ("b"))
      (fun _ => "t")).length = 2 ∧
    (independent_pairs 2 (fun _ => some ("a")) (fun _ => some ("b"))
      (fun _ => "t"))[1]? = some (some ("a"), some ("b"), "t") :=
  ⟨(c6_independent_pairs 2 (fun _ => some ("a")) (fun _ => some ("b")) (fun _ => "t")).1,
   (c6_independent_pairs 2 (fun _ => some ("a")) (fun _ => some ("b")) (fun _ => "t")).2
     1 (by decide)⟩

/-- C7 counterexample: over the columns `["a_time", "P_zero_pu_time"]`
the first time-suffix column is `"a_time"`, yet the default X column is
`"P_zero_pu_time"`: the code prefers the literal name `"P_zero_pu_time"`
over the first time-suffix match. -/
theorem c7_counterexample :
    suggest_time_cols ["a_time", "P_zero_pu_time"] =
      ["a_time", "P_zero_pu_time"] ∧
    default_x ["a_time", "P_zero_pu_time"] = "P_zero_pu_time" ∧
    "P_zero_pu_time" ≠ "a_time" := by
  decide

/-- C7 amended: the default X column is `"P_zero_pu_time"` whenever that
name is among the columns, otherwise the first time-suffix column when
any exists, otherwise the first column; independent mode applies this
same rule to each table's own columns separately. -/
theorem c7_default_x (cols : List String) :
    default_x cols =
      if ("P_zero_pu_time") ∈ cols then ("P_zero_pu_time")
      else (suggest_time_cols cols).headD (cols.headD ("")) := by
  unfold default_x
  have hmem : ("P_zero_pu_time" ∈ suggest_time_cols cols) ↔
      "P_zero_pu_time" ∈ cols := by
    rw [suggest_time_cols, List.mem_filter]
    simp [show endsWithSuffix (lowerName ("P_zero_pu_time")) "_time" = true from by decide]
  by_cases hp : "P_zero_pu_time" ∈ cols
  · rw [if_pos (hmem.mpr hp), if_pos hp]
  · rw [if_neg (fun hc => hp (hmem.mp hc)), if_neg hp]
    by_cases he : suggest_time_cols cols = []
    · rw [if_pos (by simp [he]), he]
      rfl
    · rw [if_neg (by simpa using he)]
      cases htc : suggest_time_cols cols with
      | nil => exact absurd htc he
      | cons a as => rfl

/-- C8: `load_table` fails with `UnsupportedFileType` exactly when the
lowercased file name ends in none of `.csv`, `.xlsx`, `.xls`; a `.csv`
file is read as UTF-8 and, on decode failure, re-read as latin-1 from
stream position 0 regardless of where the failed read left the stream; a
spreadsheet file is read from its first sheet (sheet 0); and in same-name
mode an empty column intersection halts the render pass with
`NoCommonColumns`, so no chart value is produced. -/
theorem c8_load_and_gate :
    (∀ (fileName : String) (utf8Ok : Bool) (failPos : Nat),
      load_table fileName utf8Ok failPos = .error .UnsupportedFileType ↔
        ¬(endsWithSuffix (lowerName fileName) ".csv" = true ∨
          endsWithSuffix (lowerName fileName) ".xlsx" = true ∨
          endsWithSuffix (lowerName fileName) ".xls" = true)) ∧
    (∀ (fileName : String) (failPos : Nat),
      endsWithSuffix (lowerName fileName) ".csv" = true →
      load_table fileName true failPos = .ok (.csvRead .utf8 0) ∧
      load_table fileName false failPos = .ok (.csvRead .latin1 0)) ∧
    (∀ (fileName : String) (utf8Ok : Bool) (failPos : Nat),
      endsWithSuffix (lowerName fileName) ".csv" = false →
      (endsWithSuffix (lowerName fileName) ".xlsx" = true ∨
        endsWithSuffix (lowerName fileName) ".xls" = true) →
      load_table fileName utf8Ok failPos = .ok (.excelRead 0)) ∧
    (∀ (α : Type) (cols1 cols2 : List String) (k : List String → α),
      (∀ c, ¬(c ∈ cols1 ∧ c ∈ cols2)) →
      sharedRenderPass cols1 cols2 k = .error .NoCommonColumns) := by
  refine ⟨?_, ?_, ?_, ?_⟩
  · intro fileName utf8Ok failPos
    unfold load_table
    by_cases h1 : endsWithSuffix (lowerName fileName) ".csv" = true
    · cases utf8Ok <;> simp [h1, seek]
    · by_cases h2 : endsWithSuffix (lowerName fileName) ".xlsx" = true
      · simp [h1, h2]
      · by_cases h3 : endsWithSuffix (lowerName fileName) ".xls" = true
        · simp [h1, h2, h3]
        · simp [h1, h2, h3]
  · intro fileName failPos h1
    unfold load_table
    rw [if_pos h1, if_pos h1]
    exact ⟨rfl, rfl⟩
  · intro fileName utf8Ok failPos h1 h2
    unfold load_table
    rw [if_neg (by simp [h1]), if_pos (by rcases h2 with h2 | h2 <;> simp [h2])]
  · intro α cols1 cols2 k hdisj
    have hempty : common_columns cols1 cols2 = [] := by
      rw [List.eq_nil_iff_forall_not_mem]
      intro c hc
      exact hdisj c ((mem_common_columns cols1 cols2 c).mp hc)
    unfold sharedRenderPass commonGate
    rw [hempty]
    rfl

/-- Witness for C8 at concrete file names and column lists. -/
theorem c8_load_and_gate_witness :
    load_table ("notes.txt") true 0 = .error .UnsupportedFileType ∧
    load_table ("DATA.CSV") false 37 = .ok (.csvRead .latin1 0) ∧
    load_table ("book.xlsx") true 0 = .ok (.excelRead 0) ∧
    sharedRenderPass ["a", "b"] ["c", "d"] (fun common => common.length) =
      .error .NoCommonColumns :=
  ⟨(c8_load_and_gate.1 ("notes.txt") true 0).mpr (by decide),
   (c8_load_and_gate.2.1 ("DATA.CSV") 37 (by decide)).2,
   c8_load_and_gate.2.2.1 ("book.xlsx") true 0 (by decide) (Or.inl (by decide)),
   c8_load_and_gate.2.2.2 Nat ["a", "b"] ["c", "d"] (fun common => common.length)
     (by
       intro c hc
       rcases hc with ⟨h1, h2⟩
       simp only [List.mem_cons, List.not_mem_nil, or_false] at h1
       rcases h1 with rfl | rfl <;> revert h2 <;> decide)⟩

/-- C10: the Y candidates are exactly the columns minus the chosen X —
in shared-name mode the common columns minus the shared X, in independent
mode each file's own columns minus that file's X — hence no candidate
equals X; consequently every pairing emitted from candidate selections
has, on both sides and in both modes, a Y column different from its
table's X column. -/
theorem c10_y_candidates (cols : List String) (x : String) :
    (∀ c, c ∈ y_candidates cols x ↔ c ∈ cols ∧ c ≠ x) ∧
    (∀ y_cols, (∀ y ∈ y_cols, y ∈ y_candidates cols x) →
      ∀ p ∈ (sharedModeResult x y_cols).2.2, p.1 ≠ x ∧ p.2.1 ≠ x) ∧
    (∀ (cols2 : List String) (x2 : String) (n : Nat)
        (y1 y2 : Nat → Option String) (title : Nat → String),
      (∀ i a, y1 i = some a → a ∈ y_candidates cols x) →
      (∀ i b, y2 i = some b → b ∈ y_candidates cols2 x2) →
      ∀ p ∈ independent_pairs n y1 y2 title,
        (∀ a, p.1 = some a → a ≠ x) ∧ (∀ b, p.2.1 = some b → b ≠ x2)) := by
  have hchar : ∀ (l : List String) (z c : String),
      c ∈ y_candidates l z ↔ c ∈ l ∧ c ≠ z := by
    intro l z c
    simp [y_candidates, List.mem_filter]
  refine ⟨hchar cols x, ?_, ?_⟩
  · intro y_cols hsub p hp
    simp only [sharedModeResult, List.mem_map] at hp
    obtain ⟨y, hy, rfl⟩ := hp
    have := (hchar cols x y).mp (hsub y hy)
    exact ⟨this.2, this.2⟩
  · intro cols2 x2 n y1 y2 title hy1 hy2 p hp
    simp only [independent_pairs, List.mem_map] at hp
    obtain ⟨i, _, rfl⟩ := hp
    constructor
    · intro a ha
      exact ((hchar cols x a).mp (hy1 i a ha)).2
    · intro b hb
      exact ((hchar cols2 x2 b).mp (hy2 i b hb)).2

/-- Witness for C10 at a concrete shared-mode selection. -/
theorem c10_y_candidates_witness :
    ("p", "p", "p").1 ≠ "t" ∧ ("p", "p", "p").2.1 ≠ "t" :=
  (c10_y_candidates ["t", "p"] "t").2.1 ["p"] (by decide)
    ("p", "p", "p") (by decide)

end OverlayPlotter
